import Mathlib

/-!
Verification development for the multi-source industrial-parts price
scraper backend (a `ProductScraper` with per-supplier static/rendered
fetch paths, a specialized `GraingerPriceScraper`, and an
`LLMSearchEnhancer` providing rule-based query enhancement and a smart
search cascade).

The JavaScript sources are shallowly embedded: pure computations
(price parsing, availability classification, confidence scoring,
deduplication, rule-based query enhancement, the smart-search cascade)
become Lean functions over `String` / `List Char` / `ℚ`; the DOM and
network are abstracted by passing the per-container extracted field
values and the fetch outcomes as explicit inputs; JavaScript numbers
arising from `parseFloat` of decimal text are modelled exactly as
rationals.  JavaScript regular expressions are embedded by a small
backtracking matcher that enumerates quantifier choices in the engine's
greedy backtracking preference order.
-/

/- ===================== JS string primitives ===================== -/

/-- JS `String.prototype.toLowerCase()` (ASCII range, as used here). -/
def jsToLower (s : String) : String := String.mk (s.toList.map Char.toLower)

/-- Strip leading and trailing whitespace from a character list. -/
def trimL (cs : List Char) : List Char :=
  ((cs.dropWhile Char.isWhitespace).reverse.dropWhile Char.isWhitespace).reverse

/-- JS `String.prototype.trim()`. -/
def jsTrim (s : String) : String := String.mk (trimL s.toList)

/-- Whether `sub` occurs as a contiguous sublist of `cs`. -/
def containsSub (cs sub : List Char) : Bool :=
  match cs with
  | [] => sub.isEmpty
  | _ :: rest => sub.isPrefixOf cs || containsSub rest sub

/-- JS `s.includes(sub)`. -/
def jsIncludes (s sub : String) : Bool := containsSub s.toList sub.toList

/-- JS `s.replace(/\s+/g, '')`: remove every whitespace character. -/
def stripWS (s : String) : String :=
  String.mk (s.toList.filter (fun c => !c.isWhitespace))

/-- JS `s.split(' ').length`: one more than the number of space characters. -/
def jsSplitSpaceCount (s : String) : Nat :=
  1 + (s.toList.filter (fun c => c = ' ')).length

/-- JS `s.slice(0, -1)`: drop the last character. -/
def dropLastChar (s : String) : String := String.mk s.toList.dropLast

/- ===================== regex character classes ===================== -/

/-- JS `\d`. -/
def isDigitC (c : Char) : Bool := c.isDigit

/-- JS `[a-z]`. -/
def isLowerAZ (c : Char) : Bool := 'a' ≤ c && c ≤ 'z'

/-- JS `[-\s]`. -/
def isDashWS (c : Char) : Bool := c = '-' || c.isWhitespace

/-- JS `[a-z\d]`. -/
def isLowerDigit (c : Char) : Bool := isLowerAZ c || c.isDigit

/-- JS `\w` (word character, ASCII). -/
def isWordC (c : Char) : Bool := c.isAlphanum || c = '_'

/- ===================== backtracking regex engine =====================

A quantified character-class item is represented by the list of lengths
it may consume from a given input, in the JS engine's greedy
backtracking preference order (longest first).  A sequence of items is
matched by enumerating all combined lengths in lexicographic preference
order; the first combination whose continuation succeeds is the one the
JS engine commits to. -/

/-- Consumption candidates of `p*` (greedy), longest first. -/
def candsStar (p : Char → Bool) (cs : List Char) : List Nat :=
  let k := (cs.takeWhile p).length
  (List.range (k + 1)).map (fun j => k - j)

/-- Consumption candidates of `p+` (greedy), longest first. -/
def candsPlus (p : Char → Bool) (cs : List Char) : List Nat :=
  let k := (cs.takeWhile p).length
  if k = 0 then [] else (List.range k).map (fun j => k - j)

/-- Consumption candidates of `p{lo,hi}` (greedy), longest first. -/
def candsRep (p : Char → Bool) (lo hi : Nat) (cs : List Char) : List Nat :=
  let k := min hi (cs.takeWhile p).length
  if k < lo then [] else (List.range (k - lo + 1)).map (fun j => k - j)

/-- Combined consumption candidates of a sequence of items, in
backtracking preference order. -/
def seqCands : List (List Char → List Nat) → List Char → List Nat
  | [], _ => [0]
  | f :: fs, cs => (f cs).flatMap (fun n => (seqCands fs (cs.drop n)).map (· + n))

/-- Is the character at absolute position `i` a word character
(out of range counts as non-word)? -/
def wordAt (cs : List Char) (i : Nat) : Bool :=
  match cs.get? i with
  | some c => isWordC c
  | none => false

/-- JS `\b` word-boundary assertion at absolute position `i`. -/
def boundaryAt (cs : List Char) (i : Nat) : Bool :=
  (match i with
   | 0 => false
   | j + 1 => wordAt cs j) != wordAt cs i

/- ===================== the part-number regex =====================

`/\b([a-z]*[-\s]*\d{3,8}[a-z]*[-\s]*[a-z\d]*)\b/` from
`LLMSearchEnhancer.ruleBasedEnhancement` (pattern 1).  The capture
group is the whole body, so the captured text is the matched substring. -/

/-- The six quantified items of the part-number pattern body. -/
def p1Items : List (List Char → List Nat) :=
  [candsStar isLowerAZ, candsStar isDashWS, candsRep isDigitC 3 8,
   candsStar isLowerAZ, candsStar isDashWS, candsStar isLowerDigit]

/-- Length of the part-number match starting at position `i`, if any. -/
def partNumberMatchAt (cs : List Char) (i : Nat) : Option Nat :=
  if boundaryAt cs i then
    (seqCands p1Items (cs.drop i)).find? (fun n => boundaryAt cs (i + n))
  else none

/-- Leftmost match of the part-number pattern: JS `s.match(re)[1]`. -/
def partNumberMatch (s : String) : Option String :=
  let cs := s.toList
  ((List.range (cs.length + 1)).findSome?
      (fun i => (partNumberMatchAt cs i).map (fun n => (i, n)))).map
    (fun p => String.mk ((cs.drop p.1).take p.2))

/- ===================== the price regexes ===================== -/

/-- Greedy iteration count of `(?:,\d{3})*`. -/
def commaIters (cs : List Char) : Nat :=
  match cs with
  | ',' :: a :: b :: c :: rest =>
    if a.isDigit && b.isDigit && c.isDigit then commaIters rest + 1 else 0
  | _ => 0

/-- Consumption candidates of `(?:,\d{3})*`, longest first. -/
def commaGroupCands (cs : List Char) : List Nat :=
  let k := commaIters cs
  (List.range (k + 1)).map (fun j => (k - j) * 4)

/-- Consumption candidates of `(?:\.\d{2})?`, present first. -/
def decimalOptCands (cs : List Char) : List Nat :=
  match cs with
  | '.' :: a :: b :: _ => if a.isDigit && b.isDigit then [3, 0] else [0]
  | _ => [0]

/-- Consumption candidates of the number body
`\d+(?:,\d{3})*(?:\.\d{2})?`, in preference order. -/
def numCands (cs : List Char) : List Nat :=
  seqCands [candsPlus isDigitC, commaGroupCands, decimalOptCands] cs

/-- Case-insensitive check that `\s*(?:USD|dollars?)` matches here.
The units contain no whitespace or digits, so the greedy `\s*` and the
alternation order are deterministic. -/
def unitOKB (cs : List Char) : Bool :=
  let r := (cs.dropWhile Char.isWhitespace).map Char.toLower
  "usd".toList.isPrefixOf r || "dollar".toList.isPrefixOf r

/-- Match of `/\$(\d+(?:,\d{3})*(?:\.\d{2})?)/` at position `i`:
returns (capture start, capture length). -/
def patA_At (cs : List Char) (i : Nat) : Option (Nat × Nat) :=
  match cs.drop i with
  | '$' :: rest => (numCands rest).head?.map (fun n => (i + 1, n))
  | _ => none

/-- Match of `/(\d+(?:,\d{3})*(?:\.\d{2})?)\s*(?:USD|dollars?)/i` at `i`. -/
def patB_At (cs : List Char) (i : Nat) : Option (Nat × Nat) :=
  let rest := cs.drop i
  ((numCands rest).find? (fun n => unitOKB (rest.drop n))).map (fun n => (i, n))

/-- Match of `/Price:\s*\$?(\d+(?:,\d{3})*(?:\.\d{2})?)/i` at `i`.
If a `$` is present but no digits follow it, dropping the optional `$`
cannot help (the next character is then `$`, not a digit), so the
backtracking is deterministic. -/
def patC_At (cs : List Char) (i : Nat) : Option (Nat × Nat) :=
  let rest := cs.drop i
  if "price:".toList.isPrefixOf (rest.map Char.toLower) then
    let ws := ((rest.drop 6).takeWhile Char.isWhitespace).length
    let r1 := (rest.drop 6).dropWhile Char.isWhitespace
    match r1 with
    | '$' :: r2 => (numCands r2).head?.map (fun n => (i + 6 + ws + 1, n))
    | _ => (numCands r1).head?.map (fun n => (i + 6 + ws, n))
  else none

/-- Match of `/\$?(\d+(?:,\d{3})*(?:\.\d{2})?)/` at `i` (the generic
supplier price pattern: the `$` is optional). -/
def patGen_At (cs : List Char) (i : Nat) : Option (Nat × Nat) :=
  match cs.drop i with
  | '$' :: rest => (numCands rest).head?.map (fun n => (i + 1, n))
  | rest => (numCands rest).head?.map (fun n => (i, n))

/-- Leftmost-match scan: try each start position left to right and
return the captured text of the first success. -/
def scanMatch (f : List Char → Nat → Option (Nat × Nat)) (cs : List Char) :
    Option (List Char) :=
  ((List.range (cs.length + 1)).findSome? (fun i => f cs i)).map
    (fun p => (cs.drop p.1).take p.2)

/- ===================== parseFloat of the captures ===================== -/

/-- Digit characters to the natural number they denote. -/
def digitsToNat (cs : List Char) : Nat :=
  cs.foldl (fun a c => a * 10 + (c.toNat - 48)) 0

/-- Exact decimal value `mantissa / 10 ^ exp` as a rational. -/
def decimalToRat (mantissa : Nat) (exp : Nat) : ℚ := (mantissa : ℚ) / 10 ^ exp

/-- JS `parseFloat(capture.replace(/,/g, ''))` for a capture of shape
`\d+(?:,\d{3})*(?:\.\d{2})?`: strip commas, then read the exact decimal. -/
def parseCapture (cap : List Char) : ℚ :=
  let digits := cap.filter (fun c => c ≠ ',')
  let intPart := digits.takeWhile (fun c => c ≠ '.')
  let frac := (digits.dropWhile (fun c => c ≠ '.')).drop 1
  decimalToRat (digitsToNat (intPart ++ frac)) frac.length

/- ===================== the two price parsers ===================== -/

/-- `GraingerPriceScraper.parsePrice`: tries the three patterns in
order (currency-prefixed, currency-suffixed word form, labeled form);
first match wins; `null` when none matches. -/
def graingerParsePrice (priceText : String) : Option ℚ :=
  if priceText = "" then none
  else
    let cs := priceText.toList
    match scanMatch patA_At cs with
    | some cap => some (parseCapture cap)
    | none =>
      match scanMatch patB_At cs with
      | some cap => some (parseCapture cap)
      | none =>
        match scanMatch patC_At cs with
        | some cap => some (parseCapture cap)
        | none => none

/-- `ProductScraper.parsePrice`: a single optional-`$` number pattern. -/
def serverParsePrice (priceText : String) : Option ℚ :=
  if priceText = "" then none
  else (scanMatch patGen_At priceText.toList).map parseCapture

/- ===================== availability classification ===================== -/

/-- The deny list of `GraingerPriceScraper.parseAvailability`. -/
def graingerUnavailableKeywords : List String :=
  ["out of stock", "discontinued", "unavailable",
   "backordered", "special order", "not available"]

/-- `GraingerPriceScraper.parseAvailability`: empty text is available;
otherwise unavailable iff the lower-cased text contains one of the six
deny-list substrings. -/
def graingerParseAvailability (availabilityText : String) : Bool :=
  if availabilityText = "" then true
  else
    let text := jsToLower availabilityText
    !(graingerUnavailableKeywords.any (fun keyword => jsIncludes text keyword))

/-- `ProductScraper.parseAvailability`: empty text is available;
otherwise unavailable iff the lower-cased text contains one of only
three deny-list substrings. -/
def serverParseAvailability (availabilityText : String) : Bool :=
  if availabilityText = "" then true
  else
    let text := jsToLower availabilityText
    !jsIncludes text "out of stock" &&
    !jsIncludes text "discontinued" &&
    !jsIncludes text "unavailable"

/- ===================== records and suppliers ===================== -/

/-- The per-container extracted field values of one scraped record,
before promotion and normalization.  The DOM extraction itself
(cascading selector queries) is abstracted: these are the values the
`getTextBySelectors` cascades produced.  The generic supplier
extractors do not collect a product link, so they leave `productUrl`
empty. -/
structure RawRecord where
  partNumber : String
  productName : String
  priceText : String
  availability : String
  productUrl : String
deriving DecidableEq, Repr

/-- The generic suppliers configured in `SUPPLIERS` (Grainger is
handled by the specialized scraper). -/
inductive Supplier
  | mcmaster
  | mscdirect
deriving DecidableEq, Repr

/-- Static per-supplier configuration from `SUPPLIERS`. -/
structure SupplierConfig where
  baseUrl : String
  searchPath : String
  productContainer : List String
  partNumber : List String
  productName : List String
  price : List String
deriving DecidableEq, Repr

/-- The `SUPPLIERS` configuration table. -/
def SUPPLIERS : Supplier → SupplierConfig
  | .mcmaster =>
    { baseUrl := "https://www.mcmaster.com"
      searchPath := "/search"
      productContainer := [".ProductTableRow", "tr[data-testid=\x22product-row\x22]", ".product-row"]
      partNumber := [".PartNumber", ".part-number", "td:first-child"]
      productName := [".ProductDescription", ".description", "td:nth-child(2)"]
      price := [".Price", ".price", ".cost"] }
  | .mscdirect =>
    { baseUrl := "https://www.mscdirect.com"
      searchPath := "/browse/search"
      productContainer := [".product-tile", ".search-result"]
      partNumber := [".product-number", ".item-number"]
      productName := [".product-title", ".product-name"]
      price := [".price", ".product-price"] }

/-- A listing produced by `GraingerPriceScraper.normalizeResults`
(the `lastUpdated` wall-clock timestamp is outside the model). -/
structure GraingerListing where
  partNumber : String
  name : String
  price : Option ℚ
  priceText : String
  availability : String
  inStock : Bool
  supplier : String
  productUrl : String
  confidence : ℚ
deriving DecidableEq, Repr

/-- A listing produced by `ProductScraper.normalizeResults` (the
`lastUpdated` timestamp is outside the model).  Note that this object
has no `confidence` field. -/
structure ServerListing where
  partNumber : String
  name : String
  price : Option ℚ
  priceText : String
  availability : String
  inStock : Bool
  supplier : Supplier
  productUrl : String
  source : String
deriving DecidableEq, Repr

/- ===================== confidence ===================== -/

/-- JS truthiness of the `parsePrice` result: `null` and `0` are falsy. -/
def priceTruthy (p : Option ℚ) : Bool :=
  match p with
  | some v => v != 0
  | none => false

/-- `GraingerPriceScraper.calculateConfidence`: base 0.5, three
data-quality increments, capped at 1.0. -/
def calculateConfidence (item : RawRecord) : ℚ :=
  let confidence : ℚ := 1/2
  let confidence :=
    if item.priceText != "" && priceTruthy (graingerParsePrice item.priceText)
    then confidence + 3/10 else confidence
  let confidence :=
    if item.partNumber != "" && decide (3 < item.partNumber.length)
    then confidence + 1/10 else confidence
  let confidence :=
    if item.productUrl != "" then confidence + 1/10 else confidence
  min confidence 1

/- ===================== normalization ===================== -/

/-- One record through `GraingerPriceScraper.normalizeResults`. -/
def graingerNormalizeOne (item : RawRecord) : GraingerListing :=
  { partNumber := item.partNumber
    name := item.productName
    price := graingerParsePrice item.priceText
    priceText := item.priceText
    availability := if item.availability = "" then "Contact supplier" else item.availability
    inStock := graingerParseAvailability item.availability
    supplier := "grainger"
    productUrl := item.productUrl
    confidence := calculateConfidence item }

/-- `GraingerPriceScraper.normalizeResults`. -/
def graingerNormalizeResults (results : List RawRecord) : List GraingerListing :=
  results.map graingerNormalizeOne

/-- One record through `ProductScraper.normalizeResults` for a given
supplier: `productUrl` is the supplier's configured base URL, and no
confidence field is attached. -/
def serverNormalizeOne (item : RawRecord) (supplier : Supplier) : ServerListing :=
  { partNumber := item.partNumber
    name := item.productName
    price := serverParsePrice item.priceText
    priceText := item.priceText
    availability := if item.availability = "" then "Contact supplier" else item.availability
    inStock := serverParseAvailability item.availability
    supplier := supplier
    productUrl := (SUPPLIERS supplier).baseUrl
    source := "live_scraping" }

/-- `ProductScraper.normalizeResults`. -/
def serverNormalizeResults (results : List RawRecord) (supplier : Supplier) :
    List ServerListing :=
  results.map (fun item => serverNormalizeOne item supplier)

/- ===================== promotion and extraction ===================== -/

/-- Promotion condition of the Grainger extraction paths
(`parseHTMLForPrices` and `extractPricingData`):
`if (partNumber && productName && priceText)`. -/
def graingerPromote (r : RawRecord) : Bool :=
  r.partNumber != "" && r.productName != "" && r.priceText != ""

/-- Promotion condition of the generic extraction paths
(`ProductScraper.parseHTML` and the `page.evaluate` extraction):
`if (partNumber && productName)` — the price text is not required. -/
def serverPromote (r : RawRecord) : Bool :=
  r.partNumber != "" && r.productName != ""

/-- `GraingerPriceScraper.extractPricingData` (the in-page extraction
of the rendered fetch): container extraction abstracted as the input
list; at most `maxResults` containers are visited; a record is pushed
only if `graingerPromote` holds.  Note this function does not
normalize. -/
def extractPricingData (containers : List RawRecord) (maxResults : Nat) :
    List RawRecord :=
  (containers.take maxResults).filter graingerPromote

/-- `GraingerPriceScraper.parseHTMLForPrices` (the static-fetch parse):
at most `maxResults` containers, promotion, then normalization. -/
def parseHTMLForPrices (containers : List RawRecord) (maxResults : Nat) :
    List GraingerListing :=
  graingerNormalizeResults ((containers.take maxResults).filter graingerPromote)

/-- The in-page extraction of `ProductScraper.scrapeWithPuppeteer`
(`page.evaluate`): at most 10 containers, generic promotion, no price
requirement. -/
def serverPuppeteerExtract (containers : List RawRecord) : List RawRecord :=
  (containers.take 10).filter serverPromote

/-- `ProductScraper.parseHTML` (static-fetch parse for a generic
supplier): at most 10 containers, generic promotion, normalization. -/
def serverParseHTML (containers : List RawRecord) (supplier : Supplier) :
    List ServerListing :=
  serverNormalizeResults ((containers.take 10).filter serverPromote) supplier

/- ===================== the Grainger pipeline ===================== -/

/-- `GraingerPriceScraper.getLivePrices`.  The network is abstracted:
`staticContainers` is the outcome of the Axios fetch (`.error` for a
transport failure, otherwise the containers its HTML parses to), and
`renderedContainers` likewise for the Puppeteer fallback.  The static
path normalizes (`parseHTMLForPrices`); the rendered path returns the
`extractPricingData` records directly, so its items are raw
(`Sum.inr`), not normalized listings (`Sum.inl`). -/
def getLivePrices (query : String)
    (staticContainers : Except String (List RawRecord))
    (renderedContainers : Except String (List RawRecord))
    (maxResults : Nat) : Except String (List (GraingerListing ⊕ RawRecord)) :=
  if (jsTrim query).length < 2 then
    .error "Query must be at least 2 characters"
  else
    match staticContainers with
    | .error e => .error ("Grainger price lookup failed: " ++ e)
    | .ok containers =>
      let results := parseHTMLForPrices containers maxResults
      if results.length > 0 then .ok (results.map Sum.inl)
      else
        match renderedContainers with
        | .error e => .error ("Grainger price lookup failed: " ++ e)
        | .ok rcontainers => .ok ((extractPricingData rcontainers maxResults).map Sum.inr)

/- ===================== aggregation and deduplication ===================== -/

/-- An item of the combined result list of
`ProductScraper.searchSingleQuery`: a generic-supplier listing, a
normalized Grainger listing, or a raw Grainger record from the
rendered fallback. -/
abbrev AggregatedItem := ServerListing ⊕ (GraingerListing ⊕ RawRecord)

/-- JS property read `item.partNumber` on an aggregated item. -/
def itemPartNumber : AggregatedItem → String
  | .inl l => l.partNumber
  | .inr (.inl g) => g.partNumber
  | .inr (.inr r) => r.partNumber

/-- JS property read `item.name` on an aggregated item: raw Grainger
records carry `productName` but no `name`, so the read yields
`undefined` (`none`). -/
def itemName : AggregatedItem → Option String
  | .inl l => some l.name
  | .inr (.inl g) => some g.name
  | .inr (.inr _) => none

/-- JS property read `item.confidence` on an aggregated item: only
normalized Grainger listings carry one (`undefined` = `none`). -/
def itemConfidence : AggregatedItem → Option ℚ
  | .inl _ => none
  | .inr (.inl g) => some g.confidence
  | .inr (.inr _) => none

/-- The deduplication key of `ProductScraper.removeDuplicates`:
`` `${item.partNumber}-${item.name}`.toLowerCase().replace(/\s+/g, '') ``.
An absent `name` interpolates as the string `undefined`. -/
def itemKey (i : AggregatedItem) : String :=
  stripWS (jsToLower (itemPartNumber i ++ "-" ++ (itemName i).getD "undefined"))

/-- The `seen`-set filter loop of `ProductScraper.removeDuplicates`
(the JS `Set` is modelled as the list of keys added so far). -/
def removeDuplicatesAux (seen : List String) : List AggregatedItem → List AggregatedItem
  | [] => []
  | x :: xs =>
    if itemKey x ∈ seen then removeDuplicatesAux seen xs
    else x :: removeDuplicatesAux (itemKey x :: seen) xs

/-- `ProductScraper.removeDuplicates`: keep the first item of each key. -/
def removeDuplicates (results : List AggregatedItem) : List AggregatedItem :=
  removeDuplicatesAux [] results

/-- `ProductScraper.searchSingleQuery`: fan-out over
`[mcmaster, mscdirect, grainger]`, each supplier's failure caught and
degraded to an empty contribution, then concatenation in supplier
order, deduplication, and truncation to `maxResults`.  The per-supplier
fetch outcomes are inputs: `mcmasterResults`/`mscdirectResults` are the
(already normalized) outcomes of the generic static/rendered attempts,
and `graingerOutcome` is the `getLivePrices` outcome. -/
def searchSingleQuery
    (graingerOutcome : Except String (List (GraingerListing ⊕ RawRecord)))
    (mcmasterResults mscdirectResults : List ServerListing)
    (maxResults : Nat) : List AggregatedItem :=
  let graingerItems : List AggregatedItem :=
    match graingerOutcome with
    | .ok xs => xs.map Sum.inr
    | .error _ => []
  let combined :=
    mcmasterResults.map Sum.inl ++ mscdirectResults.map Sum.inl ++ graingerItems
  (removeDuplicates combined).take maxResults

/- ===================== the session limiter ===================== -/

/-- `ProductScraper.maxConcurrentSessions`. -/
def maxConcurrentSessions : Nat := 3

/-- The capacity check and increment at the top of
`ProductScraper.scrapeWithPuppeteer`: at capacity the call throws
immediately (no queuing, counter untouched); otherwise the counter is
incremented. -/
def sessionAcquire (activeSessions : Nat) : Except String Nat :=
  if activeSessions ≥ maxConcurrentSessions then
    .error "Maximum concurrent sessions reached"
  else .ok (activeSessions + 1)

/-- The counter behaviour of one `ProductScraper.scrapeWithPuppeteer`
call: `bodyOutcome` is the outcome of everything inside the `try`
(navigation, extraction); any thrown error there is caught and
degraded to `[]`, and the `finally` block decrements the counter, so
every non-capacity exit returns the counter to its initial value.
The result pairs the returned value with the final counter. -/
def scrapeWithPuppeteer (activeSessions : Nat)
    (bodyOutcome : Except String (List RawRecord)) (supplier : Supplier) :
    Except String (List ServerListing) × Nat :=
  match sessionAcquire activeSessions with
  | .error e => (.error e, activeSessions)
  | .ok a =>
    match bodyOutcome with
    | .ok containers =>
      (.ok (serverNormalizeResults (serverPuppeteerExtract containers) supplier), a - 1)
    | .error _ => (.ok [], a - 1)

/-- Events touching the rendered-fetch machinery, for the interleaved
(single-threaded, atomic between awaits) execution model:
`acquire`/`release` bracket a generic `scrapeWithPuppeteer` body, while
`graingerStart`/`graingerEnd` bracket a
`GraingerPriceScraper.getPricesWithPuppeteer` body, which never touches
`activeSessions`. -/
inductive SessionEvent
  | acquire
  | release
  | graingerStart
  | graingerEnd
deriving DecidableEq, Repr

/-- Counter state: `active` is `ProductScraper.activeSessions`;
`grainger` counts concurrently running Grainger rendered fetches
(nothing in the code counts them). -/
structure SessState where
  active : Nat
  grainger : Nat
deriving DecidableEq, Repr

/-- One event step; `none` when the event is not enabled (an `acquire`
at capacity throws instead of stepping, a `release` needs an active
session). -/
def sessStep (s : SessState) : SessionEvent → Option SessState
  | .acquire =>
    if s.active ≥ maxConcurrentSessions then none
    else some { s with active := s.active + 1 }
  | .release =>
    if s.active = 0 then none else some { s with active := s.active - 1 }
  | .graingerStart => some { s with grainger := s.grainger + 1 }
  | .graingerEnd =>
    if s.grainger = 0 then none else some { s with grainger := s.grainger - 1 }

/-- Run a trace of events from a state. -/
def sessRun (s : SessState) : List SessionEvent → Option SessState
  | [] => some s
  | e :: es =>
    match sessStep s e with
    | some s2 => sessRun s2 es
    | none => none

/- ===================== the query enhancer ===================== -/

/-- The result object of `LLMSearchEnhancer` enhancement methods. -/
structure QueryEnhancement where
  originalQuery : String
  enhancedQuery : String
  suggestions : List String
  confidence : ℚ
  method : String
deriving DecidableEq, Repr

/-- `categoryMappings` of `ruleBasedEnhancement` (pattern 2), in
object-literal insertion order. -/
def categoryMappings : List (String × List String) :=
  [("bearing", ["6203 bearing", "6202 bearing", "pillow block bearing"]),
   ("seal", ["hydraulic seal", "oil seal 25x40x7"]),
   ("bolt", ["M8 bolt", "hex bolt", "socket head cap screw"]),
   ("gasket", ["O-ring", "hydraulic gasket", "flange gasket"]),
   ("filter", ["hydraulic filter", "air filter", "oil filter"]),
   ("motor", ["1HP motor", "stepper motor", "12V DC motor"]),
   ("valve", ["ball valve", "check valve", "solenoid valve"]),
   ("pump", ["hydraulic pump", "water pump", "gear pump"])]

/-- `this.equipmentMappings` of `LLMSearchEnhancer` (pattern 3), in
insertion order. -/
def equipmentMappings : List (String × List String) :=
  [("conveyor", ["bearing", "belt", "roller", "motor", "chain"]),
   ("pump", ["seal", "impeller", "bearing", "coupling", "gasket"]),
   ("compressor", ["belt", "filter", "valve", "pressure switch", "motor"]),
   ("forklift", ["hydraulic cylinder", "filter", "chain", "tire", "battery"]),
   ("crane", ["wire rope", "hook", "bearing", "brake", "motor"])]

/-- `this.partCategories` of `LLMSearchEnhancer`, in insertion order. -/
def partCategories : List (String × List String) :=
  [("bearings", ["ball bearing", "roller bearing", "thrust bearing", "pillow block", "flange bearing"]),
   ("seals", ["oil seal", "hydraulic seal", "o-ring", "gasket", "mechanical seal"]),
   ("fasteners", ["bolt", "screw", "nut", "washer", "stud"]),
   ("electrical", ["motor", "switch", "relay", "contactor", "fuse"]),
   ("hydraulic", ["cylinder", "pump", "valve", "hose", "fitting"]),
   ("pneumatic", ["air cylinder", "air valve", "air filter", "regulator", "lubricator"])]

/-- The size/dimension pattern `/(\d+)\s*(mm|cm|inch|"|')/` of
`ruleBasedEnhancement` (pattern 4), at one start position.  The units
begin with neither a digit nor whitespace, so the greedy `\d+` and
`\s*` are deterministic; the alternation is tried in source order. -/
def sizeMatchAt (cs : List Char) : Option (String × String) :=
  let ds := cs.takeWhile isDigitC
  if ds.isEmpty then none
  else
    let r := (cs.drop ds.length).dropWhile Char.isWhitespace
    if "mm".toList.isPrefixOf r then some (String.mk ds, "mm")
    else if "cm".toList.isPrefixOf r then some (String.mk ds, "cm")
    else if "inch".toList.isPrefixOf r then some (String.mk ds, "inch")
    else if "\x22".toList.isPrefixOf r then some (String.mk ds, "\x22")
    else if "\x27".toList.isPrefixOf r then some (String.mk ds, "\x27")
    else none

/-- Leftmost match of the size/dimension pattern. -/
def sizeMatch (s : String) : Option (String × String) :=
  let cs := s.toList
  (List.range (cs.length + 1)).findSome? (fun i => sizeMatchAt (cs.drop i))

/-- The working state (`enhancedQuery`, `suggestions`, `confidence`)
mutated across the four pattern checks of `ruleBasedEnhancement`. -/
structure RuleState where
  enhancedQuery : String
  suggestions : List String
  confidence : ℚ
deriving DecidableEq, Repr

/-- `LLMSearchEnhancer.ruleBasedEnhancement`.  All four pattern checks
run in order; each check that matches overwrites the working state
(there is no early return between checks), and the final state is
returned with method `rule_based`. -/
def ruleBasedEnhancement (query : String) : QueryEnhancement :=
  let normalizedQuery := jsTrim (jsToLower query)
  let st0 : RuleState := ⟨normalizedQuery, [], 1/2⟩
  let st1 :=
    match partNumberMatch normalizedQuery with
    | some m =>
      let partNumber := stripWS m
      RuleState.mk (partNumber ++ " bearing")
        (st0.suggestions ++ ["Try searching for: \x22" ++ partNumber ++ " bearing\x22"])
        (9/10)
    | none => st0
  let st2 :=
    match categoryMappings.find?
        (fun gs => jsIncludes normalizedQuery gs.1 &&
          decide (jsSplitSpaceCount normalizedQuery ≤ 2)) with
    | some gs => RuleState.mk (gs.2.headD "") gs.2 (8/10)
    | none => st1
  let st3 :=
    match equipmentMappings.find? (fun ep => jsIncludes normalizedQuery ep.1) with
    | some ep =>
      RuleState.mk (ep.1 ++ " " ++ ep.2.headD "")
        (ep.2.map (fun part => ep.1 ++ " " ++ part)) (7/10)
    | none => st2
  let st4 :=
    match sizeMatch normalizedQuery with
    | some su =>
      if jsIncludes normalizedQuery "bearing" then
        RuleState.mk (su.1 ++ su.2 ++ " bearing") st3.suggestions (8/10)
      else st3
    | none => st3
  ⟨query, st4.enhancedQuery, st4.suggestions, st4.confidence, "rule_based"⟩

/-- `LLMSearchEnhancer.generateSuggestions`. -/
def generateSuggestions (query : String) : List String :=
  let normalizedQuery := jsToLower query
  let suggestions :=
    partCategories.foldl
      (fun acc cp =>
        if jsIncludes normalizedQuery (dropLastChar cp.1) then acc ++ cp.2.take 2
        else acc) []
  let suggestions :=
    if suggestions.isEmpty then
      ["6203 bearing", "hydraulic seal", "M8 bolt", "O-ring 25x40x7", "1HP motor"]
    else suggestions
  suggestions.take 3

/-- `LLMSearchEnhancer.enhanceSearchQuery`.  The external LLM call (and
its internal error handling) is abstracted as the oracle `llm`; the
returned flag records whether the LLM collaborator was invoked.  The
rule-based result is used, skipping the LLM, only when its confidence
is strictly greater than 0.7; otherwise the LLM is called when an API
key is configured, and a passthrough enhancement is returned when not. -/
def enhanceSearchQuery (originalQuery : String) (hasApiKey : Bool)
    (llm : String → QueryEnhancement) : QueryEnhancement × Bool :=
  let ruleBasedResult := ruleBasedEnhancement originalQuery
  if ruleBasedResult.confidence > 7/10 then (ruleBasedResult, false)
  else if hasApiKey then (llm originalQuery, true)
  else
    (⟨originalQuery, originalQuery, generateSuggestions originalQuery,
       3/10, "passthrough"⟩, false)

/- ===================== the smart-search cascade ===================== -/

/-- The result object of `LLMSearchEnhancer.smartSearch`.  The
`suggestions` field is attached only by the last-resort return. -/
structure SmartResult (α : Type) where
  results : List α
  query : String
  originalQuery : String
  method : String
  confidence : ℚ
  suggestions : Option (List String)

/-- The suggestion loop of `smartSearch` (step 3): try each suggestion
in order, returning the first suggestion whose search yields results. -/
def trySuggestions {α : Type} (searchFunction : String → List α) :
    List String → Option (String × List α)
  | [] => none
  | s :: rest =>
    let results := searchFunction s
    if results.isEmpty then trySuggestions searchFunction rest
    else some (s, results)

/-- `LLMSearchEnhancer.smartSearch`: enhance, then try the enhanced
query, then up to 2 suggestions, then the original query as last
resort; each later stage runs only when the previous produced zero
results.  `searchFunction` abstracts the per-query multi-supplier
search (`searchSingleQuery`). -/
def smartSearch {α : Type} (originalQuery : String) (hasApiKey : Bool)
    (llm : String → QueryEnhancement) (searchFunction : String → List α) :
    SmartResult α :=
  let enhancement := (enhanceSearchQuery originalQuery hasApiKey llm).1
  let results1 := searchFunction enhancement.enhancedQuery
  if results1.isEmpty then
    match trySuggestions searchFunction (enhancement.suggestions.take 2) with
    | some sr => ⟨sr.2, sr.1, originalQuery, "suggestion", 7/10, none⟩
    | none =>
      ⟨searchFunction originalQuery, originalQuery, originalQuery, "original",
        3/10, some enhancement.suggestions⟩
  else
    ⟨results1, enhancement.enhancedQuery, originalQuery, enhancement.method,
      enhancement.confidence, none⟩

/- ===================== spec-side comparison definitions =====================

These definitions follow the specification's words (not the code) and
exist only to be compared with the code-derived definitions above in
refinement statements. -/

/-- Availability classifier as the specification words it for every
normalization path: empty text available; text containing any of the
six deny-list substrings (case-insensitively) unavailable; otherwise
available. -/
def specAvailability (availabilityText : String) : Bool :=
  if availabilityText = "" then true
  else
    !(graingerUnavailableKeywords.any
      (fun keyword => jsIncludes (jsToLower availabilityText) keyword))

/-- Canonical deduplication key as the specification words it: the
lower-cased, whitespace-stripped concatenation of `partNumber` and
`name` (no separator). -/
def specCanonicalKey (partNumber name : String) : String :=
  stripWS (jsToLower (partNumber ++ name))

/-- Rule-based enhancement as the specification words it: the four
checks run in order and the first one producing a result with
confidence ≥ 0.7 short-circuits, its result returned immediately. -/
def specRuleShortCircuit (query : String) : QueryEnhancement :=
  let normalizedQuery := jsTrim (jsToLower query)
  match partNumberMatch normalizedQuery with
  | some m =>
    let partNumber := stripWS m
    ⟨query, partNumber ++ " bearing",
      ["Try searching for: \x22" ++ partNumber ++ " bearing\x22"], 9/10, "rule_based"⟩
  | none =>
    match categoryMappings.find?
        (fun gs => jsIncludes normalizedQuery gs.1 &&
          decide (jsSplitSpaceCount normalizedQuery ≤ 2)) with
    | some gs => ⟨query, gs.2.headD "", gs.2, 8/10, "rule_based"⟩
    | none =>
      match equipmentMappings.find? (fun ep => jsIncludes normalizedQuery ep.1) with
      | some ep =>
        ⟨query, ep.1 ++ " " ++ ep.2.headD "",
          ep.2.map (fun part => ep.1 ++ " " ++ part), 7/10, "rule_based"⟩
      | none =>
        match sizeMatch normalizedQuery with
        | some su =>
          if jsIncludes normalizedQuery "bearing" then
            ⟨query, su.1 ++ su.2 ++ " bearing", [], 8/10, "rule_based"⟩
          else ⟨query, normalizedQuery, [], 1/2, "rule_based"⟩
        | none => ⟨query, normalizedQuery, [], 1/2, "rule_based"⟩

/- ===================== concrete fixtures ===================== -/

/-- A complete raw record as the Grainger rendered-fetch in-page
extraction produces it. -/
def rawGraingerRecord : RawRecord :=
  ⟨"5XK42", "Deep Groove Ball Bearing 6203", "$12.34", "In Stock",
   "https://www.grainger.com/product/5XK42"⟩

/-- A concrete LLM oracle used to instantiate theorems. -/
def llmOracle : String → QueryEnhancement :=
  fun q => ⟨q, q ++ " industrial", [], 6/10, "llm"⟩

/-- A concrete search function that finds results only for the exact
query `6203 bearing`. -/
def searchFn6203 : String → List Nat :=
  fun q => if q = "6203 bearing" then [7] else []

/-- A generic-supplier listing with part number `6203` and name
`bearing`, as aggregated from mcmaster. -/
def listingA : AggregatedItem :=
  Sum.inl ⟨"6203", "bearing", none, "", "Contact supplier", true,
    Supplier.mcmaster, "https://www.mcmaster.com", "live_scraping"⟩

/-- A generic-supplier listing whose spec-worded canonical key
coincides with `listingA`'s although part number and name differ. -/
def listingB : AggregatedItem :=
  Sum.inl ⟨"6203b", "earing", none, "", "Contact supplier", true,
    Supplier.mscdirect, "https://www.mscdirect.com", "live_scraping"⟩

/-- A normalized Grainger listing with part number `6203` and name
`bearing` (same dedup key as `listingA`, different source). -/
def listingG : AggregatedItem :=
  Sum.inr (Sum.inl ⟨"6203", "bearing", none, "", "In Stock", true, "grainger",
    "https://www.grainger.com/product/6203", 1/2⟩)

/- ===================== claim C1 ===================== -/

/-- C1: the claim says every RawRecord produced by any fetch path —
including the Grainger rendered-fetch fallback — is normalized before
deduplication and truncation.  The code violates this: when the
Grainger static parse yields zero records and the rendered fallback
extracts one, `getLivePrices` returns the `extractPricingData` record
with no `normalizeResults` call, and `searchSingleQuery` places that
raw record (still a `RawRecord`, not a `GraingerListing`) in the final
output. -/
theorem C1_grainger_rendered_output_not_normalized :
    getLivePrices "6203 bearing" (.ok []) (.ok [rawGraingerRecord]) 10
      = .ok [Sum.inr rawGraingerRecord] ∧
    searchSingleQuery (getLivePrices "6203 bearing" (.ok []) (.ok [rawGraingerRecord]) 10)
      [] [] 10 = [Sum.inr (Sum.inr rawGraingerRecord)] ∧
    (∀ g : GraingerListing,
      (Sum.inr (Sum.inr rawGraingerRecord) : AggregatedItem) ≠ Sum.inr (Sum.inl g)) := by
  refine ⟨rfl, rfl, ?_⟩
  intro g h
  exact Sum.noConfusion (Sum.inr.inj h)

/- ===================== claim C4 ===================== -/

/-- C4 counterexample: the claim says every normalization path
classifies text containing any of the six deny-list substrings as
unavailable; the generic path checks only three of them, so
`"Backordered"` is classified available there, disagreeing with the
spec-worded classifier. -/
theorem C4_backordered_counterexample :
    serverParseAvailability "Backordered" = true ∧
    specAvailability "Backordered" = false ∧
    serverParseAvailability "Backordered" ≠ specAvailability "Backordered" := by
  decide

/-- C4 amended: the Grainger path implements exactly the six-keyword
deny list of the claim; the generic path classifies unavailable only on
the three substrings `out of stock`, `discontinued`, `unavailable`;
both default empty text to available and classify other text available. -/
theorem C4_availability_amended :
    (∀ t, graingerParseAvailability t = specAvailability t) ∧
    (∀ t, serverParseAvailability t = false ↔
      t ≠ "" ∧ (jsIncludes (jsToLower t) "out of stock" ||
                jsIncludes (jsToLower t) "discontinued" ||
                jsIncludes (jsToLower t) "unavailable") = true) ∧
    graingerParseAvailability "Out of Stock" = false ∧
    serverParseAvailability "Out of Stock" = false ∧
    graingerParseAvailability "" = true ∧
    serverParseAvailability "" = true ∧
    graingerParseAvailability "Ships in 2 days" = true ∧
    serverParseAvailability "Ships in 2 days" = true ∧
    graingerParseAvailability "Backordered" = false := by
  refine ⟨fun t => rfl, ?_, by decide, by decide, by decide, by decide,
    by decide, by decide, by decide⟩
  intro t
  by_cases h : t = ""
  · subst h; simp [serverParseAvailability]
  · cases h1 : jsIncludes (jsToLower t) "out of stock" <;>
      cases h2 : jsIncludes (jsToLower t) "discontinued" <;>
      cases h3 : jsIncludes (jsToLower t) "unavailable" <;>
      simp [serverParseAvailability, h, h1, h2, h3]

/-- C4 witness: the amended theorem applied at a concrete text. -/
theorem C4_availability_amended_witness :
    graingerParseAvailability "Backordered" = specAvailability "Backordered" :=
  C4_availability_amended.1 "Backordered"

/- ===================== claim C5 ===================== -/

/-- C5 counterexample: the claim says every extraction path promotes a
record only when partNumber, name, and priceText are all non-empty;
the generic paths do not require the price text, so a record with an
empty `priceText` is promoted there. -/
theorem C5_priceless_record_promoted :
    serverPuppeteerExtract [⟨"PN123", "Widget", "", "", ""⟩]
      = [⟨"PN123", "Widget", "", "", ""⟩] ∧
    (serverParseHTML [⟨"PN123", "Widget", "", "", ""⟩] Supplier.mcmaster).length = 1 ∧
    RawRecord.priceText ⟨"PN123", "Widget", "", "", ""⟩ = "" := by
  exact ⟨by decide, rfl, rfl⟩

/-- C5 amended: the Grainger extraction paths promote only records
with partNumber, name, and priceText all non-empty; the generic
extraction paths (static parse and in-page rendered extraction)
require only partNumber and name. -/
theorem C5_promotion_amended :
    (∀ containers maxResults r, r ∈ extractPricingData containers maxResults →
      r.partNumber ≠ "" ∧ r.productName ≠ "" ∧ r.priceText ≠ "") ∧
    (∀ containers maxResults l, l ∈ parseHTMLForPrices containers maxResults →
      l.partNumber ≠ "" ∧ l.name ≠ "" ∧ l.priceText ≠ "") ∧
    (∀ containers r, r ∈ serverPuppeteerExtract containers →
      r.partNumber ≠ "" ∧ r.productName ≠ "") ∧
    (∀ containers supplier l, l ∈ serverParseHTML containers supplier →
      l.partNumber ≠ "" ∧ l.name ≠ "") := by
  refine ⟨?_, ?_, ?_, ?_⟩
  · intro cs m r hr
    have := (List.mem_filter.mp hr).2
    simpa [graingerPromote, and_assoc] using this
  · intro cs m l hl
    simp only [parseHTMLForPrices, graingerNormalizeResults, List.mem_map] at hl
    obtain ⟨r, hr, rfl⟩ := hl
    have := (List.mem_filter.mp hr).2
    simpa [graingerPromote, graingerNormalizeOne, and_assoc] using this
  · intro cs r hr
    have := (List.mem_filter.mp hr).2
    simpa [serverPromote] using this
  · intro cs sup l hl
    simp only [serverParseHTML, serverNormalizeResults, List.mem_map] at hl
    obtain ⟨r, hr, rfl⟩ := hl
    have := (List.mem_filter.mp hr).2
    simpa [serverPromote, serverNormalizeOne] using this

/-- C5 witness: the amended theorem applied to a concrete promoted
record of the Grainger rendered extraction. -/
theorem C5_promotion_amended_witness :
    (⟨"A1", "B", "C", "", ""⟩ : RawRecord).partNumber ≠ "" :=
  (C5_promotion_amended.1 [⟨"A1", "B", "C", "", ""⟩] 10 ⟨"A1", "B", "C", "", ""⟩
    (by decide)).1

/- ===================== claim C7 ===================== -/

/-- C7 counterexample: the claim says price parsing (in every path)
tries the three anchored patterns and yields null when none matches;
the generic parser is a single optional-`$` pattern, so on `42 items`
(which matches none of the three claimed patterns — the Grainger
parser returns null) it returns 42. -/
theorem C7_generic_parser_counterexample :
    serverParsePrice "42 items" = some 42 ∧
    graingerParsePrice "42 items" = none := by
  constructor
  · have h : serverParsePrice "42 items" = some (decimalToRat 42 0) := rfl
    rw [h]; norm_num [decimalToRat]
  · rfl

/-- C7 amended: the Grainger parser implements the claimed
three-pattern cascade (and the cited examples evaluate as claimed);
the generic parser uses a single optional-currency number pattern and
agrees on the cited examples, but returns a number whenever any bare
number occurs in the text. -/
theorem C7_price_parsing_amended :
    graingerParsePrice "$123.45" = some (123.45 : ℚ) ∧
    graingerParsePrice "1,234.56 USD" = some (1234.56 : ℚ) ∧
    graingerParsePrice "Price: $99" = some 99 ∧
    graingerParsePrice "no price here" = none ∧
    serverParsePrice "$123.45" = some (123.45 : ℚ) ∧
    serverParsePrice "1,234.56 USD" = some (1234.56 : ℚ) ∧
    serverParsePrice "Price: $99" = some 99 ∧
    serverParsePrice "no price here" = none := by
  refine ⟨?_, ?_, ?_, rfl, ?_, ?_, ?_, rfl⟩
  · have h : graingerParsePrice "$123.45" = some (decimalToRat 12345 2) := rfl
    rw [h]; norm_num [decimalToRat]
  · have h : graingerParsePrice "1,234.56 USD" = some (decimalToRat 123456 2) := rfl
    rw [h]; norm_num [decimalToRat]
  · have h : graingerParsePrice "Price: $99" = some (decimalToRat 99 0) := rfl
    rw [h]; norm_num [decimalToRat]
  · have h : serverParsePrice "$123.45" = some (decimalToRat 12345 2) := rfl
    rw [h]; norm_num [decimalToRat]
  · have h : serverParsePrice "1,234.56 USD" = some (decimalToRat 123456 2) := rfl
    rw [h]; norm_num [decimalToRat]
  · have h : serverParsePrice "Price: $99" = some (decimalToRat 99 0) := rfl
    rw [h]; norm_num [decimalToRat]

/- ===================== claim C10 ===================== -/

/-- C10: every listing produced by the generic normalization path has
`productUrl` equal to the supplier's configured base URL, independent
of the scraped record. -/
theorem C10_productUrl_is_baseUrl :
    ∀ (results : List RawRecord) (supplier : Supplier),
      ∀ l ∈ serverNormalizeResults results supplier,
        l.productUrl = (SUPPLIERS supplier).baseUrl := by
  intro rs sup l hl
  simp only [serverNormalizeResults, List.mem_map] at hl
  obtain ⟨r, _, rfl⟩ := hl
  rfl

/-- C10 witness: the theorem applied to a record that carried a
specific product link; the output still points at the base URL. -/
theorem C10_productUrl_is_baseUrl_witness :
    (serverNormalizeOne ⟨"X9", "Gear", "$5.00", "", "https://www.mcmaster.com/product/X9"⟩
      Supplier.mcmaster).productUrl = (SUPPLIERS Supplier.mcmaster).baseUrl :=
  C10_productUrl_is_baseUrl
    [⟨"X9", "Gear", "$5.00", "", "https://www.mcmaster.com/product/X9"⟩]
    Supplier.mcmaster _ (by simp [serverNormalizeResults])

/- ===================== shared helper lemmas ===================== -/

/-- Rule-based enhancement of `6203`: pattern 1 matches the whole
token, the later patterns do not match, so the result is
`6203 bearing` with confidence 0.9. -/
theorem ruleBasedEnhancement_6203 :
    ruleBasedEnhancement "6203" =
      ⟨"6203", "6203 bearing", ["Try searching for: \x226203 bearing\x22"],
        9/10, "rule_based"⟩ := rfl

/-- On `6203` the rule-based confidence 0.9 exceeds the 0.7 gate, so
`enhanceSearchQuery` returns the rule-based result and never invokes
the LLM, whatever the key configuration and oracle. -/
theorem enhanceSearchQuery_6203 (k : Bool) (llm : String → QueryEnhancement) :
    enhanceSearchQuery "6203" k llm = (ruleBasedEnhancement "6203", false) := by
  have h : ((7:ℚ)/10 < 9/10) := by norm_num
  simp [enhanceSearchQuery, ruleBasedEnhancement_6203, h]

/-- The deduplication filter only ever drops elements. -/
theorem removeDuplicatesAux_sublist (seen : List String) (l : List AggregatedItem) :
    (removeDuplicatesAux seen l).Sublist l := by
  induction l generalizing seen with
  | nil => simp [removeDuplicatesAux]
  | cons x xs ih =>
    simp only [removeDuplicatesAux]
    split
    · exact (ih seen).cons x
    · exact (ih _).cons₂ x

/-- Membership in the deduplication output: exactly the elements whose
key is unseen and does not occur earlier in the list. -/
theorem removeDuplicatesAux_mem_iff (x : AggregatedItem) (seen : List String)
    (l : List AggregatedItem) :
    x ∈ removeDuplicatesAux seen l ↔
      ∃ n, l.get? n = some x ∧ itemKey x ∉ seen ∧
        itemKey x ∉ (l.take n).map itemKey := by
  induction l generalizing seen with
  | nil => simp [removeDuplicatesAux]
  | cons z zs ih =>
    simp only [removeDuplicatesAux]
    by_cases hz : itemKey z ∈ seen
    · rw [if_pos hz, ih]
      constructor
      · rintro ⟨n, hget, hseen, htake⟩
        refine ⟨n + 1, by simpa using hget, hseen, ?_⟩
        simp only [List.take_succ_cons, List.map_cons, List.mem_cons, not_or]
        exact ⟨fun hk => hseen (hk ▸ hz), htake⟩
      · rintro ⟨n, hget, hseen, htake⟩
        cases n with
        | zero =>
          exfalso
          have hx : z = x := by simpa using hget
          exact hseen (hx ▸ hz)
        | succ m =>
          refine ⟨m, by simpa using hget, hseen, ?_⟩
          intro hmem
          apply htake
          simp only [List.take_succ_cons, List.map_cons, List.mem_cons]
          exact Or.inr hmem
    · rw [if_neg hz]
      simp only [List.mem_cons]
      constructor
      · rintro (rfl | hmem)
        · exact ⟨0, rfl, hz, by simp⟩
        · obtain ⟨n, hget, hseen, htake⟩ := (ih _).mp hmem
          simp only [List.mem_cons, not_or] at hseen
          refine ⟨n + 1, by simpa using hget, hseen.2, ?_⟩
          simp only [List.take_succ_cons, List.map_cons, List.mem_cons, not_or]
          exact ⟨hseen.1, htake⟩
      · rintro ⟨n, hget, hseen, htake⟩
        cases n with
        | zero =>
          have hx : z = x := by simpa using hget
          exact Or.inl hx.symm
        | succ m =>
          simp only [List.take_succ_cons, List.map_cons, List.mem_cons, not_or] at htake
          refine Or.inr ((ih _).mpr ⟨m, by simpa using hget, ?_, htake.2⟩)
          simp only [List.mem_cons, not_or]
          exact ⟨htake.1, hseen⟩

/-- The keys of the deduplication output are distinct, and never
among the already-seen keys. -/
theorem removeDuplicatesAux_keys_nodup (seen : List String) (l : List AggregatedItem) :
    (∀ k ∈ seen, k ∉ (removeDuplicatesAux seen l).map itemKey) ∧
    ((removeDuplicatesAux seen l).map itemKey).Nodup := by
  induction l generalizing seen with
  | nil => simp [removeDuplicatesAux]
  | cons z zs ih =>
    by_cases hz : itemKey z ∈ seen
    · simp only [removeDuplicatesAux, if_pos hz]
      exact ih seen
    · simp only [removeDuplicatesAux, if_neg hz]
      obtain ⟨h1, h2⟩ := ih (itemKey z :: seen)
      constructor
      · intro k hk
        simp only [List.map_cons, List.mem_cons, not_or]
        constructor
        · intro hkz
          exact hz (hkz ▸ hk)
        · exact h1 k (List.mem_cons_of_mem _ hk)
      · simp only [List.map_cons, List.nodup_cons]
        exact ⟨h1 (itemKey z) (List.mem_cons_self _ _), h2⟩

/- ===================== claim C2 ===================== -/

/-- C2 counterexample: the claim says every listing of every
normalization path carries the computed confidence field; a listing
produced by the generic normalization path carries none (the JS object
has no `confidence` key), while the Grainger path's listing does. -/
theorem C2_generic_listing_has_no_confidence :
    (serverNormalizeResults [⟨"62032", "Deep Groove", "$123.45", "In Stock", ""⟩]
        Supplier.mcmaster).map (fun l => itemConfidence (Sum.inl l)) = [none] ∧
    (graingerNormalizeResults [⟨"62032", "Deep Groove", "$123.45", "In Stock", ""⟩]).map
        (fun l => itemConfidence (Sum.inr (Sum.inl l))) ≠ [none] := by
  constructor
  · rfl
  · intro h
    simp [graingerNormalizeResults, graingerNormalizeOne, itemConfidence] at h

/-- C2 amended: Grainger-path listings carry a confidence equal to
base 0.5, plus 0.3 when the price text parses to a truthy (non-null,
non-zero) price, plus 0.1 when the part number is longer than 3
characters, plus 0.1 when a product URL is present, capped at 1.0 and
always within [0, 1]; generic-path listings carry no confidence field. -/
theorem C2_confidence_amended :
    (∀ r : RawRecord, calculateConfidence r =
      min ((1/2 : ℚ)
        + (if r.priceText != "" && priceTruthy (graingerParsePrice r.priceText)
           then (3:ℚ)/10 else 0)
        + (if decide (3 < r.partNumber.length) then (1:ℚ)/10 else 0)
        + (if r.productUrl != "" then (1:ℚ)/10 else 0)) 1) ∧
    (∀ r : RawRecord, 0 ≤ calculateConfidence r ∧ calculateConfidence r ≤ 1) ∧
    (∀ r : RawRecord, (graingerNormalizeOne r).confidence = calculateConfidence r) ∧
    (∀ results supplier, ∀ l ∈ serverNormalizeResults results supplier,
      itemConfidence (Sum.inl l) = none) := by
  have hid : ∀ r : RawRecord, calculateConfidence r =
      min ((1/2 : ℚ)
        + (if r.priceText != "" && priceTruthy (graingerParsePrice r.priceText)
           then (3:ℚ)/10 else 0)
        + (if decide (3 < r.partNumber.length) then (1:ℚ)/10 else 0)
        + (if r.productUrl != "" then (1:ℚ)/10 else 0)) 1 := by
    intro r
    have hb : (r.partNumber != "" && decide (3 < r.partNumber.length))
        = decide (3 < r.partNumber.length) := by
      cases hq : decide (3 < r.partNumber.length) with
      | false => simp
      | true =>
        have hlen : 3 < r.partNumber.length := of_decide_eq_true hq
        have hne : r.partNumber ≠ "" := by
          intro h
          rw [h] at hlen
          exact absurd hlen (by decide)
        simp [hne]
    unfold calculateConfidence
    rw [hb]
    cases h1 : (r.priceText != "" && priceTruthy (graingerParsePrice r.priceText)) <;>
      cases h2 : decide (3 < r.partNumber.length) <;>
      cases h3 : (r.productUrl != "") <;>
      simp only [if_true, if_false, Bool.false_eq_true, Bool.true_eq_false] <;>
      congr 1 <;> ring
  refine ⟨hid, ?_, fun r => rfl, fun rs sup l _ => rfl⟩
  intro r
  rw [hid r]
  have harg : (0:ℚ) ≤ (1/2 : ℚ)
      + (if r.priceText != "" && priceTruthy (graingerParsePrice r.priceText)
         then (3:ℚ)/10 else 0)
      + (if decide (3 < r.partNumber.length) then (1:ℚ)/10 else 0)
      + (if r.productUrl != "" then (1:ℚ)/10 else 0) := by
    split_ifs <;> norm_num
  exact ⟨le_min harg (by norm_num), min_le_right _ _⟩

/-- C2 witness: the amended theorem applied at a concrete record. -/
theorem C2_confidence_amended_witness :
    0 ≤ calculateConfidence rawGraingerRecord ∧
    calculateConfidence rawGraingerRecord ≤ 1 :=
  C2_confidence_amended.2.1 rawGraingerRecord

/- ===================== claim C3 ===================== -/

/-- C3 counterexample: the claim says the limiter bounds concurrently
active rendered fetches across all sources by 3; with the three
limiter slots taken, a Grainger rendered fetch still starts (it never
touches the counter), reaching 4 concurrently active rendered fetches. -/
theorem C3_rendered_fetch_ceiling_counterexample :
    sessRun ⟨0, 0⟩ [.acquire, .acquire, .acquire, .graingerStart]
      = some ⟨3, 1⟩ ∧
    maxConcurrentSessions < 3 + 1 := by decide

/-- C3 amended: the limiter governs only the generic
`scrapeWithPuppeteer` fetches: along every trace its counter stays at
most 3, an acquire at capacity fails immediately with the capacity
error, and every `scrapeWithPuppeteer` call returns the counter to its
initial value on every exit path; Grainger rendered fetches bypass the
limiter entirely, so the total across all sources is not bounded by it. -/
theorem C3_session_limiter_amended :
    (∀ (trace : List SessionEvent) (s : SessState),
      sessRun ⟨0, 0⟩ trace = some s → s.active ≤ maxConcurrentSessions) ∧
    (∀ a, maxConcurrentSessions ≤ a →
      sessionAcquire a = .error "Maximum concurrent sessions reached") ∧
    (∀ a body supplier, (scrapeWithPuppeteer a body supplier).2 = a) := by
  have inv : ∀ (trace : List SessionEvent) (s0 s : SessState),
      s0.active ≤ maxConcurrentSessions → sessRun s0 trace = some s →
      s.active ≤ maxConcurrentSessions := by
    intro trace
    induction trace with
    | nil =>
      intro s0 s h0 h
      simp only [sessRun, Option.some.injEq] at h
      exact h ▸ h0
    | cons e es ih =>
      intro s0 s h0 h
      cases hstep : sessStep s0 e with
      | none =>
        simp only [sessRun, hstep] at h
        exact Option.noConfusion h
      | some s1 =>
        simp only [sessRun, hstep] at h
        refine ih s1 s ?_ h
        cases e with
        | acquire =>
          simp only [sessStep] at hstep
          by_cases hc : s0.active ≥ maxConcurrentSessions
          · rw [if_pos hc] at hstep
            exact Option.noConfusion hstep
          · rw [if_neg hc] at hstep
            have hs1 := Option.some.inj hstep
            have ha : s1.active = s0.active + 1 := by rw [← hs1]
            simp only [maxConcurrentSessions] at hc ⊢
            omega
        | release =>
          simp only [sessStep] at hstep
          by_cases hc : s0.active = 0
          · rw [if_pos hc] at hstep
            exact Option.noConfusion hstep
          · rw [if_neg hc] at hstep
            have hs1 := Option.some.inj hstep
            have ha : s1.active = s0.active - 1 := by rw [← hs1]
            simp only [maxConcurrentSessions] at h0 ⊢
            omega
        | graingerStart =>
          simp only [sessStep] at hstep
          have hs1 := Option.some.inj hstep
          have ha : s1.active = s0.active := by rw [← hs1]
          omega
        | graingerEnd =>
          simp only [sessStep] at hstep
          by_cases hc : s0.grainger = 0
          · rw [if_pos hc] at hstep
            exact Option.noConfusion hstep
          · rw [if_neg hc] at hstep
            have hs1 := Option.some.inj hstep
            have ha : s1.active = s0.active := by rw [← hs1]
            omega
  refine ⟨fun trace s h => inv trace ⟨0, 0⟩ s (by decide) h, ?_, ?_⟩
  · intro a h
    simp [sessionAcquire, h]
  · intro a body supplier
    simp only [scrapeWithPuppeteer, sessionAcquire]
    by_cases hc : a ≥ maxConcurrentSessions
    · rw [if_pos hc]
    · rw [if_neg hc]
      cases body <;> simp

/-- C3 witness: the amended theorem applied to a concrete trace and a
concrete call at capacity. -/
theorem C3_session_limiter_amended_witness :
    SessState.active ⟨1, 0⟩ ≤ maxConcurrentSessions ∧
    sessionAcquire 3 = .error "Maximum concurrent sessions reached" :=
  ⟨C3_session_limiter_amended.1 [.acquire] ⟨1, 0⟩ (by decide),
   C3_session_limiter_amended.2.1 3 (by decide)⟩

/- ===================== claim C6 ===================== -/

/-- C6 counterexample: on `pump` the second check matches with
confidence 0.8 ≥ 0.7, so under the claimed short-circuit semantics the
result would be `hydraulic pump` at 0.8; the code runs the later
equipment check, which overwrites the result to `pump seal` at 0.7,
and because the LLM gate is strict (`> 0.7`), the enhancer then
invokes the LLM even though the final confidence is ≥ 0.7. -/
theorem C6_no_short_circuit_counterexample :
    (ruleBasedEnhancement "pump").enhancedQuery = "pump seal" ∧
    (ruleBasedEnhancement "pump").confidence = 7/10 ∧
    (specRuleShortCircuit "pump").enhancedQuery = "hydraulic pump" ∧
    (specRuleShortCircuit "pump").confidence = 8/10 ∧
    ruleBasedEnhancement "pump" ≠ specRuleShortCircuit "pump" ∧
    (enhanceSearchQuery "pump" true llmOracle).2 = true := by
  refine ⟨rfl, rfl, rfl, rfl, ?_, ?_⟩
  · intro h
    have h2 := congrArg QueryEnhancement.enhancedQuery h
    exact absurd h2 (by decide)
  · have hc : (ruleBasedEnhancement "pump").confidence = 7/10 := rfl
    have hn : ¬ ((7:ℚ)/10 > 7/10) := by norm_num
    simp [enhanceSearchQuery, hc, hn]

/-- C6 amended: all four rule checks run in fixed order, each matching
check overwriting the working result; the rule-based result is used
and the LLM skipped exactly when its final confidence strictly exceeds
0.7 and otherwise the LLM is invoked whenever a key is configured; for
input `6203` the enhanced query is `6203 bearing` with confidence 0.9
and the LLM is never invoked. -/
theorem C6_enhancer_amended :
    (∀ q k llm, (enhanceSearchQuery q k llm).2
        = ((decide ((ruleBasedEnhancement q).confidence ≤ 7/10)) && k)) ∧
    (∀ q k llm, 7/10 < (ruleBasedEnhancement q).confidence →
      enhanceSearchQuery q k llm = (ruleBasedEnhancement q, false)) ∧
    (∀ k llm, (enhanceSearchQuery "6203" k llm).1.enhancedQuery = "6203 bearing" ∧
      (enhanceSearchQuery "6203" k llm).1.confidence = 9/10 ∧
      (enhanceSearchQuery "6203" k llm).2 = false) := by
  have p1 : ∀ q k llm, (enhanceSearchQuery q k llm).2
      = ((decide ((ruleBasedEnhancement q).confidence ≤ 7/10)) && k) := by
    intro q k llm
    by_cases h : (ruleBasedEnhancement q).confidence > 7/10
    · have hd : decide ((ruleBasedEnhancement q).confidence ≤ 7/10) = false := by
        simpa using not_le.mpr h
      simp [enhanceSearchQuery, h, hd]
    · have hd : decide ((ruleBasedEnhancement q).confidence ≤ 7/10) = true := by
        simpa using not_lt.mp h
      cases k <;> simp [enhanceSearchQuery, h, hd]
  have p2 : ∀ q k llm, 7/10 < (ruleBasedEnhancement q).confidence →
      enhanceSearchQuery q k llm = (ruleBasedEnhancement q, false) := by
    intro q k llm h
    simp [enhanceSearchQuery, h]
  refine ⟨p1, p2, ?_⟩
  intro k llm
  have h := p2 "6203" k llm (by rw [ruleBasedEnhancement_6203]; norm_num)
  rw [h, ruleBasedEnhancement_6203]
  exact ⟨rfl, rfl, rfl⟩

/-- C6 witness: the amended theorem's gate applied at `6203` with a
configured key and concrete oracle. -/
theorem C6_enhancer_amended_witness :
    enhanceSearchQuery "6203" true llmOracle = (ruleBasedEnhancement "6203", false) :=
  C6_enhancer_amended.2.1 "6203" true llmOracle
    (by rw [ruleBasedEnhancement_6203]; norm_num)

/- ===================== claim C8 ===================== -/

/-- C8 counterexample: the claim's canonical key is the lower-cased
whitespace-stripped concatenation of partNumber and name; the code's
key inserts a hyphen between the two fields.  Two listings with equal
spec-worded canonical key `6203bearing` but different code keys both
survive deduplication, contradicting "at most one listing per
canonical key". -/
theorem C8_canonical_key_counterexample :
    specCanonicalKey "6203" "bearing" = specCanonicalKey "6203b" "earing" ∧
    itemKey listingA ≠ itemKey listingB ∧
    removeDuplicates [listingA, listingB] = [listingA, listingB] := by
  exact ⟨by decide, by decide, rfl⟩

/-- C8 amended: the code's canonical key is the lower-cased,
whitespace-stripped `partNumber + "-" + name`; per that key the
deduplicator keeps at most one listing (the first occurrence in
source-iteration order, preserving order), and two listings with equal
code key from different sources leave exactly the earlier one. -/
theorem C8_dedup_amended :
    ∀ (l : List AggregatedItem),
      ((removeDuplicates l).map itemKey).Nodup ∧
      (removeDuplicates l).Sublist l ∧
      (∀ x, x ∈ removeDuplicates l ↔
        ∃ n, l.get? n = some x ∧ itemKey x ∉ (l.take n).map itemKey) ∧
      removeDuplicates [listingA, listingG] = [listingA] := by
  intro l
  refine ⟨(removeDuplicatesAux_keys_nodup [] l).2,
    removeDuplicatesAux_sublist [] l, ?_, rfl⟩
  intro x
  simpa using removeDuplicatesAux_mem_iff x [] l

/-- C8 witness: the amended theorem applied at a concrete list. -/
theorem C8_dedup_amended_witness :
    ((removeDuplicates [listingA, listingB, listingG]).map itemKey).Nodup :=
  (C8_dedup_amended [listingA, listingB, listingG]).1

/- ===================== claim C9 ===================== -/

/-- C9: the smart-search cascade tries the enhanced query, then up to
two suggestions in order, then the original query, each stage only
when the previous yielded nothing, reporting the query used, the stage
method and the enhancer's confidence (a fixed 0.7 for the suggestion
stage, 0.3 for the last resort); with a search function that only
finds `6203 bearing`, searching `6203` returns those results with
method `rule_based` or `suggestion`. -/
theorem C9_smartSearch_cascade :
    (∀ (α : Type) (q : String) (k : Bool) (llm : String → QueryEnhancement)
        (sf : String → List α),
      (sf (enhanceSearchQuery q k llm).1.enhancedQuery ≠ [] →
        smartSearch q k llm sf =
          ⟨sf (enhanceSearchQuery q k llm).1.enhancedQuery,
            (enhanceSearchQuery q k llm).1.enhancedQuery, q,
            (enhanceSearchQuery q k llm).1.method,
            (enhanceSearchQuery q k llm).1.confidence, none⟩) ∧
      (∀ s r, sf (enhanceSearchQuery q k llm).1.enhancedQuery = [] →
        trySuggestions sf ((enhanceSearchQuery q k llm).1.suggestions.take 2)
          = some (s, r) →
        smartSearch q k llm sf = ⟨r, s, q, "suggestion", 7/10, none⟩) ∧
      (sf (enhanceSearchQuery q k llm).1.enhancedQuery = [] →
        trySuggestions sf ((enhanceSearchQuery q k llm).1.suggestions.take 2) = none →
        smartSearch q k llm sf =
          ⟨sf q, q, q, "original", 3/10,
            some (enhanceSearchQuery q k llm).1.suggestions⟩)) ∧
    (∀ (k : Bool) (llm : String → QueryEnhancement) (sf : String → List Nat),
      sf "6203 bearing" ≠ [] → (∀ s, s ≠ "6203 bearing" → sf s = []) →
      (smartSearch "6203" k llm sf).results = sf "6203 bearing" ∧
      ((smartSearch "6203" k llm sf).method = "rule_based" ∨
       (smartSearch "6203" k llm sf).method = "suggestion")) := by
  have hEmp : ∀ {α : Type} (l : List α), l ≠ [] → l.isEmpty = false := by
    intro α l h
    cases l with
    | nil => exact absurd rfl h
    | cons a l => rfl
  constructor
  · intro α q k llm sf
    refine ⟨?_, ?_, ?_⟩
    · intro h
      have hne := hEmp _ h
      simp [smartSearch, hne]
    · intro s r h hts
      have he : (sf (enhanceSearchQuery q k llm).1.enhancedQuery).isEmpty = true := by
        rw [h]; rfl
      simp [smartSearch, he, hts]
    · intro h hts
      have he : (sf (enhanceSearchQuery q k llm).1.enhancedQuery).isEmpty = true := by
        rw [h]; rfl
      simp [smartSearch, he, hts]
  · intro k llm sf h1 h2
    have he := enhanceSearchQuery_6203 k llm
    have hne := hEmp _ h1
    constructor
    · simp [smartSearch, he, ruleBasedEnhancement_6203, hne]
    · left
      simp [smartSearch, he, ruleBasedEnhancement_6203, hne]

/-- C9 witness: the cascade theorem applied to the concrete search
function that finds only `6203 bearing`. -/
theorem C9_smartSearch_cascade_witness :
    (smartSearch "6203" false llmOracle searchFn6203).results = [7] := by
  have h := (C9_smartSearch_cascade.2 false llmOracle searchFn6203
    (by decide) (fun s hs => by simp [searchFn6203, hs])).1
  rw [h]
  rfl
